import Mathlib

/-!
Verification of the smart-crawler content-detection pipeline.

The definitions below are a shallow embedding of the JavaScript sources:
- `SmartCrawlerCoordinator` (smart-crawler-coordinator.js): content-region
  detection, link-pattern pruning, block filtering, link-pattern-only check.
- `NonBrowserCrawler` (non-browser-crawler.js): the lightweight fetch retry
  loop and the browser-fallback classification.

Modelling conventions:
- A JavaScript block object with optional string fields becomes `Block` with
  `Option String` fields; JS truthiness of a string field (`!!s`) is
  `optTruthy`, and the common pattern `!!(s && s.trim())` is `strTruthy`.
- `countWords` mirrors the source: trim, early-return 0 on the empty trim,
  otherwise split on whitespace and count the non-empty pieces (splitting on
  each whitespace character and filtering empties yields the same count as
  JS `split(/\s+/)` on a trimmed string).
- Index loops become folds/recursions over `List.range` / `List.range'`;
  `blocks[i]` becomes `blocks.getD i default` (all accesses are in bounds).
- The float comparison `(link / content) > 0.7` in `checkOnlyLinkPatterns`
  is modelled exactly over the rationals as `10 * link > 7 * content`
  (both counts are small integers, where the two comparisons agree).
- The network loop of `NonBrowserCrawler.crawlUrl` is modelled as a pure
  state machine over an oracle giving each attempt's outcome; the JS
  1-based `attempt` counter with guard `attempt > maxRetries` is carried as
  `attempt` plus the structurally decreasing count `remaining` of retries
  still allowed (`remaining = maxRetries + 1 - attempt`). Waits are
  recorded in a `delays` trace.
-/

/-- JS `String.prototype.trim`: drop whitespace from both ends. Defined
structurally over the character list (rather than through `String.trim`,
whose byte-position recursion the kernel cannot evaluate) so that every
definition below is computable by `decide`. -/
def jsTrim (s : String) : String :=
  ⟨((s.data.dropWhile Char.isWhitespace).reverse.dropWhile Char.isWhitespace).reverse⟩

/-- Split a character list at every character satisfying `p` (the pieces
between matches, like JS `split` with a single-character separator
pattern); `acc` holds the reversed current piece. -/
def splitChars (p : Char → Bool) : List Char → List Char → List (List Char)
  | [], acc => [acc.reverse]
  | c :: cs, acc =>
      if p c then acc.reverse :: splitChars p cs []
      else splitChars p cs (c :: acc)

/-- JS `String.prototype.toLowerCase` (ASCII range), structurally. -/
def jsToLower (s : String) : String :=
  ⟨s.data.map Char.toLower⟩

/-- One content fragment, as built by `convertToSimpleBlocks`: optional
title, content, image (with alt) and link fields. -/
structure Block where
  title : Option String := none
  content : Option String := none
  image : Option String := none
  alt : Option String := none
  link : Option String := none
  deriving Repr, DecidableEq

instance : Inhabited Block := ⟨{}⟩

/-- JS truthiness of the pattern `!!(s && s.trim())`: the field is present,
non-empty, and non-empty after trimming. -/
def strTruthy : Option String → Bool
  | none => false
  | some s => s != "" && jsTrim s != ""

/-- JS truthiness of a bare optional string field (`!!s`): present and
non-empty (whitespace-only strings are truthy here, unlike `strTruthy`). -/
def optTruthy : Option String → Bool
  | none => false
  | some s => s != ""

/-- `countWords` from smart-crawler-coordinator.js: trim, return 0 for the
empty trim, else split on whitespace and count non-empty words. -/
def countWords (text : String) : Nat :=
  let trimmed := jsTrim text
  if trimmed == "" then 0
  else ((splitChars Char.isWhitespace trimmed.data []).filter (fun w => w != [])).length

/-- `containsNumbers` from smart-crawler-coordinator.js (`/\d/.test`). -/
def containsNumbers (text : String) : Bool :=
  text.data.any Char.isDigit

/-- The content-bearing test of `detectContentRegions` (used in the
first-10-blocks scan, when opening/extending a region, and in the
lookahead): non-empty trimmed title, or non-empty trimmed content whose
word count is at least 15. -/
def isValidContentStart (b : Block) : Bool :=
  let hasTitle := strTruthy b.title
  let hasContent := strTruthy b.content
  let contentWordCount := if hasContent then countWords (b.content.getD "") else 0
  hasTitle || (hasContent && decide (contentWordCount ≥ 15))

/-- First pass of `detectContentRegions`: does any of the first
`min 10 len` blocks pass the content-bearing test? -/
def hasValidContentInFirst10 (blocks : List Block) : Bool :=
  (blocks.take 10).any isValidContentStart

/-- A detected content region (the object built in `detectContentRegions`).
`endIdx` models the JS `end` field (a Lean keyword). -/
structure Region where
  start : Nat
  endIdx : Nat
  reason : String
  isFirstRegion : Bool
  extendRange : Nat
  lastValidContentIndex : Nat
  deriving Repr, DecidableEq

/-- The mutable accumulator of the `detectContentRegions` scan. -/
structure DetectState where
  regions : List Region
  currentRegion : Option Region
  isFirstContentRegion : Bool
  deriving Repr, DecidableEq

/-- The lookahead of `detectContentRegions`: first index
`j ∈ [base+1, min (base+10) (len-1)]` whose block is content-bearing. -/
def findNextValidContent (blocks : List Block) (base : Nat) : Option Nat :=
  let lookAheadEnd := min (base + 10) (blocks.length - 1)
  (List.range' (base + 1) (lookAheadEnd + 1 - (base + 1))).find?
    (fun j => isValidContentStart (blocks.getD j default))

/-- First half of the `detectContentRegions` loop body at index `i`:
on a content-bearing block, open a new region (window 20 only for the
first region when nothing content-bearing was in the first 10 blocks,
else window 10) or extend/update the open one. -/
def detectPhase1 (blocks : List Block) (hasFound10 : Bool) (st : DetectState) (i : Nat) :
    DetectState :=
  let block := blocks.getD i default
  if isValidContentStart block then
    match st.currentRegion with
    | none =>
        let extendRange := if st.isFirstContentRegion && !hasFound10 then 20 else 10
        let newRegion : Region :=
          { start := i
            endIdx := min (i + extendRange - 1) (blocks.length - 1)
            reason := if strTruthy block.title then "title_start" else "content_start"
            isFirstRegion := st.isFirstContentRegion
            extendRange := extendRange
            lastValidContentIndex := i }
        { st with currentRegion := some newRegion, isFirstContentRegion := false }
    | some r =>
        let newEnd := min (i + r.extendRange - 1) (blocks.length - 1)
        if newEnd > r.endIdx then
          { st with currentRegion := some { r with endIdx := newEnd, lastValidContentIndex := i } }
        else
          { st with currentRegion := some { r with lastValidContentIndex := i } }
  else st

/-- Second half of the `detectContentRegions` loop body at index `i`:
when the scan reaches the open region's end, either extend it to cover the
next content-bearing block found by the lookahead, or close it. -/
def detectPhase2 (blocks : List Block) (st : DetectState) (i : Nat) : DetectState :=
  match st.currentRegion with
  | none => st
  | some r =>
      if i ≥ r.endIdx then
        match findNextValidContent blocks r.lastValidContentIndex with
        | some j =>
            { st with currentRegion := some { r with
                endIdx := min (j + r.extendRange - 1) (blocks.length - 1),
                lastValidContentIndex := j } }
        | none =>
            { st with regions := st.regions ++ [r], currentRegion := none }
      else st

/-- One iteration of the `detectContentRegions` scan. -/
def detectStep (blocks : List Block) (hasFound10 : Bool) (st : DetectState) (i : Nat) :
    DetectState :=
  detectPhase2 blocks (detectPhase1 blocks hasFound10 st i) i

/-- The regions accumulated so far, closed ones first, then the open one. -/
def allRegions (st : DetectState) : List Region :=
  st.regions ++ st.currentRegion.toList

/-- `detectContentRegions` from smart-crawler-coordinator.js: the forward
scan over all indices, then the still-open region is closed. -/
def detectContentRegions (blocks : List Block) : List Region :=
  let hasFound10 := hasValidContentInFirst10 blocks
  let final := (List.range blocks.length).foldl (detectStep blocks hasFound10)
    { regions := [], currentRegion := none, isFirstContentRegion := true }
  match final.currentRegion with
  | some r => final.regions ++ [r]
  | none => final.regions

/-- The pair-eligibility test of `checkLinkPatterns`: content or title with
at least 5 words. -/
def isValidContentForPattern (b : Block) : Bool :=
  let hasValidContent := strTruthy b.content
  let hasValidTitle := strTruthy b.title
  let contentWordCount := if hasValidContent then countWords (b.content.getD "") else 0
  let titleWordCount := if hasValidTitle then countWords (b.title.getD "") else 0
  (hasValidContent && decide (contentWordCount ≥ 5)) ||
    (hasValidTitle && decide (titleWordCount ≥ 5))

/-- The associated-link test of `checkLinkPatterns`: a trimmed non-empty
link in block `i` itself or in one of the next 3 blocks. -/
def hasAssociatedLink (blocks : List Block) (i : Nat) : Bool :=
  if strTruthy (blocks.getD i default).link then true
  else
    (List.range' (i + 1) (min (i + 3) (blocks.length - 1) + 1 - (i + 1))).any
      (fun j => strTruthy (blocks.getD j default).link)

/-- A block at index `i` that both passes the pattern test and has an
associated link (the event that advances the consecutive-pair counter). -/
def linkPair (blocks : List Block) (i : Nat) : Bool :=
  isValidContentForPattern (blocks.getD i default) && hasAssociatedLink blocks i

/-- The per-region loop of `checkLinkPatterns` over the remaining indices
`l`, carrying `(adjustedEnd, contentLinkPairs, consecutivePairs)`; on the
15th consecutive pair at index `i` it breaks with
`adjustedEnd = i - (15 - 1)`. Returns the final triple. -/
def checkLinkPatternsLoop (blocks : List Block) :
    List Nat → Nat → Nat → Nat → Nat × Nat × Nat
  | [], adjustedEnd, contentLinkPairs, consecutivePairs =>
      (adjustedEnd, contentLinkPairs, consecutivePairs)
  | i :: rest, adjustedEnd, contentLinkPairs, consecutivePairs =>
      if isValidContentForPattern (blocks.getD i default) then
        if hasAssociatedLink blocks i then
          let consecutivePairs := consecutivePairs + 1
          let contentLinkPairs := contentLinkPairs + 1
          if consecutivePairs ≥ 15 then (i - (15 - 1), contentLinkPairs, consecutivePairs)
          else checkLinkPatternsLoop blocks rest adjustedEnd contentLinkPairs consecutivePairs
        else checkLinkPatternsLoop blocks rest adjustedEnd contentLinkPairs 0
      else checkLinkPatternsLoop blocks rest adjustedEnd contentLinkPairs 0

/-- A region after the link-pattern pruning pass. -/
structure PrunedRegion where
  start : Nat
  endIdx : Nat
  reason : String
  isFirstRegion : Bool
  linkPatternDetected : Bool
  contentLinkPairs : Nat
  deriving Repr, DecidableEq

/-- `checkLinkPatterns` from smart-crawler-coordinator.js: per region, scan
its indices for consecutive content+link / title+link pairs; 15 consecutive
pairs truncate the region's end; a region whose adjusted end falls before
its start is dropped. -/
def checkLinkPatterns (blocks : List Block) (contentRegions : List Region) :
    List PrunedRegion :=
  contentRegions.filterMap (fun region =>
    let res := checkLinkPatternsLoop blocks
      (List.range' region.start (region.endIdx + 1 - region.start)) region.endIdx 0 0
    if region.start ≤ res.1 then
      some { start := region.start
             endIdx := res.1
             reason := region.reason
             isFirstRegion := region.isFirstRegion
             linkPatternDetected := decide (res.2.2 ≥ 15)
             contentLinkPairs := res.2.1 }
    else none)

/-- `shouldIncludeBlock` from smart-crawler-coordinator.js: keep a block
with a non-empty title, or a non-empty image, or (trimmed non-empty)
content of at least 20 words; everything else — including pure link
blocks — is dropped. -/
def shouldIncludeBlock (block : Block) : Bool :=
  if strTruthy block.title then true
  else if strTruthy block.image then true
  else if strTruthy block.content then decide (countWords (block.content.getD "") ≥ 20)
  else false

/-- The associated-link test of `checkOnlyLinkPatterns`: a non-empty (not
necessarily trimmed) link in block `i` or one of the next 3 blocks. -/
def hasLinkWithin3 (blocks : List Block) (i : Nat) : Bool :=
  if optTruthy (blocks.getD i default).link then true
  else
    (List.range' (i + 1) (min (i + 3) (blocks.length - 1) + 1 - (i + 1))).any
      (fun j => optTruthy (blocks.getD j default).link)

/-- The loop body of `checkOnlyLinkPatterns`, carrying
`(contentBlockCount, linkPatternCount)`. -/
def checkOnlyStep (blocks : List Block) (acc : Nat × Nat) (i : Nat) : Nat × Nat :=
  let b := blocks.getD i default
  let hasContent := strTruthy b.content || strTruthy b.title
  if hasContent then
    if hasLinkWithin3 blocks i then (acc.1 + 1, acc.2 + 1)
    else (acc.1 + 1, acc.2)
  else acc

/-- `checkOnlyLinkPatterns` from smart-crawler-coordinator.js: count blocks
with non-empty title or content, and among them those with an associated
link within 3 positions; the page is link-pattern-only when the counts are
positive and the ratio strictly exceeds 0.7 (modelled exactly as
`10 * link > 7 * content`). -/
def checkOnlyLinkPatterns (blocks : List Block) : Bool :=
  let counts := (List.range blocks.length).foldl (checkOnlyStep blocks) (0, 0)
  decide (counts.1 > 0) && decide (10 * counts.2 > 7 * counts.1)

/-- Specification-side count: blocks with non-empty title or content. -/
def contentBearingCount (blocks : List Block) : Nat :=
  (List.range blocks.length).countP
    (fun i => strTruthy (blocks.getD i default).content ||
      strTruthy (blocks.getD i default).title)

/-- Specification-side count: content-bearing blocks with an associated
link within the next 3 positions. -/
def linkedContentCount (blocks : List Block) : Nat :=
  (List.range blocks.length).countP
    (fun i => (strTruthy (blocks.getD i default).content ||
      strTruthy (blocks.getD i default).title) && hasLinkWithin3 blocks i)

/-- A kept block plus the `_meta` information attached by
`extractMainContentBlocks`. -/
structure FilteredBlock where
  block : Block
  regionReason : String
  blockIndex : Nat
  isMainContent : Bool
  contentWordCount : Nat
  deriving Repr, DecidableEq

/-- `extractMainContentBlocks` from smart-crawler-coordinator.js: with no
regions, either suppress everything (link-pattern-only page) or filter the
whole sequence; with regions, filter the blocks inside each region. -/
def extractMainContentBlocks (blocks : List Block) (regions : List PrunedRegion) :
    List FilteredBlock :=
  if regions.isEmpty then
    if checkOnlyLinkPatterns blocks then []
    else
      (blocks.filter shouldIncludeBlock).enum.map (fun p =>
        { block := p.2
          regionReason := "no_region_filter"
          blockIndex := p.1
          isMainContent := true
          contentWordCount := match p.2.content with
            | some c => countWords c
            | none => 0 })
  else
    regions.foldl (fun acc region =>
      acc ++ (List.range' region.start (region.endIdx + 1 - region.start)).filterMap
        (fun i =>
          if i < blocks.length then
            let b := blocks.getD i default
            if shouldIncludeBlock b then
              some { block := b
                     regionReason := region.reason
                     blockIndex := i
                     isMainContent := true
                     contentWordCount := match b.content with
                       | some c => countWords c
                       | none => 0 }
            else none
          else none)) []

/-- `detectAndFilterMainContent`: the three-stage pipeline. -/
def detectAndFilterMainContent (blocks : List Block) : List FilteredBlock :=
  if blocks.isEmpty then []
  else extractMainContentBlocks blocks (checkLinkPatterns blocks (detectContentRegions blocks))

/-- One raw extracted item as consumed by `convertToSimpleBlocks`. -/
structure RawItem where
  title : Option String := none
  content : Option String := none
  img : Option String := none
  image : Option String := none
  alt : Option String := none
  link : Option String := none
  deriving Repr, DecidableEq

/-- `convertToSimpleBlocks` from smart-crawler-coordinator.js: copy the
truthy fields of each item into a block, keep non-empty blocks, then run
the content-detection pipeline. -/
def convertToSimpleBlocks (items : List RawItem) : List FilteredBlock :=
  let simpleBlocks := items.foldr (fun item acc =>
    let hasImg := optTruthy item.img || optTruthy item.image
    let block : Block :=
      { title := if optTruthy item.title then item.title else none
        content := if optTruthy item.content then item.content else none
        image := if hasImg then (if optTruthy item.img then item.img else item.image) else none
        alt := if hasImg && optTruthy item.alt then item.alt else none
        link := if optTruthy item.link then item.link else none }
    if block.title.isSome || block.content.isSome || block.image.isSome ||
        block.link.isSome then
      block :: acc
    else acc) []
  detectAndFilterMainContent simpleBlocks

/-- JS `String.prototype.includes`, over the character lists. -/
def containsSubstr (s pat : String) : Bool :=
  (List.range (s.data.length + 1)).any
    (fun i => (s.data.drop i).take pat.data.length == pat.data)

/-- The outcome the network gives one fetch attempt: an accepted (status
200–399) response with a content type and a body, or a thrown error with a
message (network error, timeout, or a rejected status code). -/
inductive AttemptOutcome where
  | response (contentType : String) (body : String) (status : Nat)
  | failure (message : String)
  deriving Repr, DecidableEq

/-- The structured result of `NonBrowserCrawler.crawlUrl`, with the waits
performed (`delays`) and the number of attempts made recorded as a trace. -/
structure FetchResult where
  success : Bool
  method : String := "non_browser"
  statusCode : Option Nat := none
  body : Option String := none
  error : Option String := none
  shouldFallbackToBrowser : Option Bool := none
  delays : List Nat := []
  attemptsUsed : Nat := 0
  deriving Repr, DecidableEq

namespace NonBrowserCrawler

/-- Constructor defaults of non-browser-crawler.js. -/
def timeout : Nat := 30000

/-- `this.maxRetries` of non-browser-crawler.js. -/
def maxRetries : Nat := 2

/-- `this.retryDelay` (the base delay) of non-browser-crawler.js. -/
def retryDelay : Nat := 1000

/-- The `maxRedirects` option passed to the HTTP client. -/
def maxRedirects : Nat := 5

/-- `shouldFallbackToBrowser` from non-browser-crawler.js: classify the
final error message (lowercased) by substring signatures. -/
def shouldFallbackToBrowser (errorMessage : String) : Bool :=
  let m := jsToLower errorMessage
  if containsSubstr m "timeout" || containsSubstr m "empty" ||
      containsSubstr m "no content" || containsSubstr m "javascript" then true
  else if containsSubstr m "enotfound" || containsSubstr m "econnrefused" ||
      containsSubstr m "certificate" then false
  else if containsSubstr m "403" || containsSubstr m "503" ||
      containsSubstr m "cloudflare" then true
  else true

/-- The retry loop of `NonBrowserCrawler.crawlUrl`, starting at attempt
number `attempt` with `remaining` retries still allowed (the JS guard
`attempt > maxRetries` is exactly `remaining = 0`). A non-HTML content
type is thrown inside the loop and handled like every other error; a
failed attempt with retries remaining waits `retryDelay * attempt` and
reenters the loop. -/
def crawlFrom (oracle : Nat → AttemptOutcome) (retryDelay : Nat) :
    Nat → Nat → List Nat → FetchResult
  | attempt, remaining, delays =>
      match oracle attempt with
      | .response ct body status =>
          if containsSubstr ct "text/html" then
            { success := true
              statusCode := some status
              body := some body
              delays := delays
              attemptsUsed := attempt }
          else
            let msg := "Non-HTML content type: " ++ ct
            match remaining with
            | 0 =>
                { success := false
                  error := some msg
                  shouldFallbackToBrowser := some (shouldFallbackToBrowser msg)
                  delays := delays
                  attemptsUsed := attempt }
            | r + 1 =>
                crawlFrom oracle retryDelay (attempt + 1) r (delays ++ [retryDelay * attempt])
      | .failure msg =>
          match remaining with
          | 0 =>
              { success := false
                error := some msg
                shouldFallbackToBrowser := some (shouldFallbackToBrowser msg)
                delays := delays
                attemptsUsed := attempt }
          | r + 1 =>
              crawlFrom oracle retryDelay (attempt + 1) r (delays ++ [retryDelay * attempt])

/-- `NonBrowserCrawler.crawlUrl` with the default configuration: attempts
start at 1 with `maxRetries` retries allowed. -/
def crawlUrl (oracle : Nat → AttemptOutcome) : FetchResult :=
  crawlFrom oracle retryDelay 1 maxRetries []

end NonBrowserCrawler

/-- A fetch the coordinator performs, recorded as a trace event. -/
inductive FetchAction where
  | nonBrowser (url : String)
  | browser (url : String)
  deriving Repr, DecidableEq

/-- The result `executeNonBrowserCrawl` hands to the coordinator (the
extracted items on success, the error and fallback hint on failure). -/
structure NonBrowserOutcome where
  success : Bool
  items : List RawItem := []
  error : Option String := none
  shouldFallbackToBrowser : Option Bool := none
  deriving Repr, DecidableEq

/-- The result of `SmartCrawlerCoordinator.crawlUrl`. -/
structure CoordinatorResult where
  success : Bool
  url : String
  domain : String
  method : Option String
  mainContentBlocks : List FilteredBlock := []
  error : Option String := none
  deriving Repr, DecidableEq

namespace SmartCrawlerCoordinator

/-- `SmartCrawlerCoordinator.crawlUrl`: run the non-browser crawler; on
success process the items through the content pipeline, on failure report
the error — in both cases with method `non_browser`. The browser crawler
is a parameter only because the class carries one; the returned trace
records every fetch performed. -/
def crawlUrl (nonBrowserCrawl : String → NonBrowserOutcome)
    (browserCrawl : String → NonBrowserOutcome) (url domain : String) :
    CoordinatorResult × List FetchAction :=
  let crawlResult := nonBrowserCrawl url
  if crawlResult.success then
    let processedBlocks := convertToSimpleBlocks crawlResult.items
    ({ success := true
       url := url
       domain := domain
       method := some "non_browser"
       mainContentBlocks := processedBlocks.filter (fun b => b.isMainContent) },
     [FetchAction.nonBrowser url])
  else
    ({ success := false
       url := url
       domain := domain
       method := some "non_browser"
       error := crawlResult.error },
     [FetchAction.nonBrowser url])

end SmartCrawlerCoordinator

/-! Invariants of the `detectContentRegions` scan state, used to prove the
region-shape and window-selection claims. -/

/-- What holds of every closed region once `n` indices are processed. -/
def RegClosedOk (len n : Nat) (r : Region) : Prop :=
  r.start ≤ r.lastValidContentIndex ∧ r.lastValidContentIndex ≤ r.endIdx ∧
    r.endIdx < len ∧ r.endIdx < n

/-- What holds of the open region once `n` indices are processed. -/
def CurOk (len n : Nat) (regs : List Region) (c : Region) : Prop :=
  c.start ≤ c.lastValidContentIndex ∧ c.lastValidContentIndex ≤ c.endIdx ∧
    c.endIdx < len ∧ c.start < n ∧ (c.extendRange = 10 ∨ c.extendRange = 20) ∧
    ∀ r ∈ regs, r.endIdx < c.start

/-- Like `CurOk` but with `c.start ≤ n`: the state between the two phases
of the loop body at index `n` (the region may just have opened at `n`). -/
def CurOkMid (len n : Nat) (regs : List Region) (c : Region) : Prop :=
  c.start ≤ c.lastValidContentIndex ∧ c.lastValidContentIndex ≤ c.endIdx ∧
    c.endIdx < len ∧ c.start ≤ n ∧ (c.extendRange = 10 ∨ c.extendRange = 20) ∧
    ∀ r ∈ regs, r.endIdx < c.start

/-- Window bookkeeping: while no region ever opened the first-region flag
is still set; afterwards the first region carries window 20 exactly when
nothing content-bearing was among the first 10 blocks, and every later
region carries window 10. -/
def WindowOk (f10 : Bool) (st : DetectState) : Prop :=
  match allRegions st with
  | [] => st.isFirstContentRegion = true
  | r :: rs =>
      st.isFirstContentRegion = false ∧
        r.extendRange = (if f10 then 10 else 20) ∧
        ∀ q ∈ rs, q.extendRange = 10

/-- The full loop invariant of the `detectContentRegions` scan. -/
def DetectInv (len : Nat) (f10 : Bool) (n : Nat) (st : DetectState) : Prop :=
  (∀ r ∈ st.regions, RegClosedOk len n r) ∧
    List.Chain' (fun a b => a.endIdx < b.start) st.regions ∧
    (∀ c ∈ st.currentRegion.toList, CurOk len n st.regions c) ∧
    WindowOk f10 st

/-- The invariant between the two phases of the loop body at index `n`. -/
def DetectInvMid (len : Nat) (f10 : Bool) (n : Nat) (st : DetectState) : Prop :=
  (∀ r ∈ st.regions, RegClosedOk len n r) ∧
    List.Chain' (fun a b => a.endIdx < b.start) st.regions ∧
    (∀ c ∈ st.currentRegion.toList, CurOkMid len n st.regions c) ∧
    WindowOk f10 st

/-! Concrete inputs used by the claim theorems and witnesses below. -/

/-- A block with no payload at all. -/
def bEmpty : Block := {}

/-- A block whose only payload is a title. -/
def bTitle : Block := { title := some "Example Heading" }

/-- A block whose only payload is two-character content. -/
def bShort : Block := { content := some "hi" }

/-- A short content block carrying a link (a "navigation entry"). -/
def bShortLinked : Block := { content := some "hi", link := some "/x" }

/-- A five-word content block carrying a link: a link pair for the
pruner. -/
def bPair : Block :=
  { content := some "alpha beta gamma delta epsilon"
    link := some "https://example.com/x" }

/-- 40 blocks, a title at index 12 and nothing content-bearing anywhere
else (indices 0–9 in particular). -/
def c2Blocks40 : List Block :=
  List.replicate 12 bEmpty ++ [bTitle] ++ List.replicate 27 bEmpty

/-- 20 blocks, a title at index 12, nothing else content-bearing. -/
def c2Blocks20 : List Block :=
  List.replicate 12 bEmpty ++ [bTitle] ++ List.replicate 7 bEmpty

/-- 15 blocks with a title at index 0: content-bearing within the first
10 blocks. -/
def c2BlocksFirst10 : List Block :=
  [bTitle] ++ List.replicate 14 bEmpty

/-- 20 blocks whose content-bearing blocks are exactly indices 5 and 14. -/
def c3Blocks : List Block :=
  List.replicate 5 bEmpty ++ [bTitle] ++ List.replicate 8 bEmpty ++ [bTitle] ++
    List.replicate 5 bEmpty

/-- 15 consecutive link pairs. -/
def c4RunBlocks : List Block := List.replicate 15 bPair

/-- 14 consecutive link pairs followed by a non-pair. -/
def c4NoRunBlocks : List Block := List.replicate 14 bPair ++ [bEmpty]

/-- The region `[0, 14]` as the detector would hand it to the pruner. -/
def c4Region : Region :=
  { start := 0
    endIdx := 14
    reason := "content_start"
    isFirstRegion := true
    extendRange := 10
    lastValidContentIndex := 0 }

/-- Twenty one-letter words. -/
def s20 : String := "a b c d e f g h i j k l m n o p q r s t"

/-- Nineteen one-letter words. -/
def s19 : String := "a b c d e f g h i j k l m n o p q r s"

/-- An oracle whose first attempt yields a non-HTML response and whose
second yields an HTML success. -/
def c7Oracle : Nat → AttemptOutcome := fun attempt =>
  if attempt = 1 then .response "application/json" "{}" 200
  else .response "text/html" "<html></html>" 200

/-- An oracle on which every attempt fails with a DNS error. -/
def c8Oracle : Nat → AttemptOutcome := fun _ =>
  .failure "getaddrinfo ENOTFOUND example.invalid"

/-! General helper lemmas. -/

theorem trim_eq_empty_of_strTruthy_false (s : String) (h : strTruthy (some s) = false) :
    jsTrim s = "" := by
  by_cases hs : s = ""
  · subst hs; decide
  · simp [strTruthy, hs] at h
    exact h

theorem countWords_eq_zero_of_trim (s : String) (h : jsTrim s = "") : countWords s = 0 := by
  simp [countWords, h]

theorem countWords_getD_zero (c : Option String) (h : strTruthy c = false) :
    countWords (c.getD "") = 0 := by
  cases c with
  | none => decide
  | some s => exact countWords_eq_zero_of_trim s (trim_eq_empty_of_strTruthy_false s h)

/-- Claim C1: the content-bearing test of the Content Region Detector holds
exactly when the block has a non-empty (after trimming) title, or content
whose whitespace-separated word count is at least 15; in particular a
block whose only payload is content of 6 words (between 5 and 14) is not
content-bearing. -/
theorem claim1_content_bearing_iff :
    (∀ b : Block, isValidContentStart b =
      (strTruthy b.title || decide (15 ≤ countWords (b.content.getD "")))) ∧
    isValidContentStart { content := some "one two three four five six" } = false := by
  constructor
  · intro b
    unfold isValidContentStart
    cases ht : strTruthy b.title
    · cases hc : strTruthy b.content
      · have h0 := countWords_getD_zero b.content hc
        simp [hc, h0]
      · simp [hc, Nat.le_iff_lt_or_eq]
    · simp [ht]
  · decide

/-- Claim C5: the Block Filter keeps a block exactly when it has a
non-empty title, a non-empty image, or content of at least 20 words; a
20-word content-only block is kept, the 19-word variant is dropped, and a
link-only block is always dropped. -/
theorem claim5_block_filter :
    (∀ b : Block, shouldIncludeBlock b =
      (strTruthy b.title || strTruthy b.image ||
        decide (20 ≤ countWords (b.content.getD "")))) ∧
    shouldIncludeBlock { content := some s20 } = true ∧
    shouldIncludeBlock { content := some s19 } = false ∧
    (∀ l : Option String, shouldIncludeBlock { link := l } = false) := by
  refine ⟨?_, by decide, by decide, ?_⟩
  · intro b
    unfold shouldIncludeBlock
    cases ht : strTruthy b.title
    · cases hi : strTruthy b.image
      · cases hc : strTruthy b.content
        · have h0 := countWords_getD_zero b.content hc
          simp [ht, hi, hc, h0]
        · simp [ht, hi, hc]
      · simp [ht, hi]
    · simp [ht]
  · intro l
    rfl

/-- Claim C10: the coordinator's `crawlUrl` never performs a browser
fetch: its output does not depend on the browser crawler, both the
success and the failure result carry method `non_browser`, the fetch trace
is exactly one non-browser fetch, and the `shouldFallbackToBrowser` hint
of the non-browser result is never consumed. -/
theorem claim10_coordinator_never_browser :
    ∀ (nb bc bc' : String → NonBrowserOutcome) (hint : String → Option Bool)
      (url domain : String),
      SmartCrawlerCoordinator.crawlUrl nb bc url domain =
        SmartCrawlerCoordinator.crawlUrl nb bc' url domain ∧
      (SmartCrawlerCoordinator.crawlUrl nb bc url domain).1.method = some "non_browser" ∧
      (SmartCrawlerCoordinator.crawlUrl nb bc url domain).2 = [FetchAction.nonBrowser url] ∧
      SmartCrawlerCoordinator.crawlUrl
          (fun u => { nb u with shouldFallbackToBrowser := hint u }) bc url domain =
        SmartCrawlerCoordinator.crawlUrl nb bc url domain := by
  intro nb bc bc' hint url domain
  refine ⟨rfl, ?_, ?_, ?_⟩
  · unfold SmartCrawlerCoordinator.crawlUrl
    cases h : (nb url).success <;> simp [h]
  · unfold SmartCrawlerCoordinator.crawlUrl
    cases h : (nb url).success <;> simp [h]
  · unfold SmartCrawlerCoordinator.crawlUrl
    cases h : (nb url).success <;> simp [h]

/-- Claim C7 counterexample: the non-HTML content type on the first
attempt is *retried* — with an HTML response on the second attempt the
crawl succeeds after one `retryDelay * 1` wait, so a non-HTML response is
not a hard unretried failure. -/
theorem claim7_cex_nonhtml_is_retried :
    NonBrowserCrawler.crawlUrl c7Oracle =
      { success := true, statusCode := some 200, body := some "<html></html>",
        delays := [1000], attemptsUsed := 2 } := by
  decide

/-- Claim C7 (amended): a non-HTML response is an error handled exactly
like the transient ones — both are retried with delay `baseDelay × attempt`
while retries remain, both produce a structured failure once the
`maxRetries = 2` budget (with `maxRedirects = 5`) is exhausted. -/
theorem claim7_retry_discipline :
    (∀ (oracle : Nat → AttemptOutcome) (d attempt r : Nat) (delays : List Nat)
        (ct body : String) (status : Nat),
      oracle attempt = .response ct body status →
      containsSubstr ct "text/html" = false →
      NonBrowserCrawler.crawlFrom oracle d attempt (r + 1) delays =
        NonBrowserCrawler.crawlFrom oracle d (attempt + 1) r (delays ++ [d * attempt])) ∧
    (∀ (oracle : Nat → AttemptOutcome) (d attempt r : Nat) (delays : List Nat)
        (msg : String),
      oracle attempt = .failure msg →
      NonBrowserCrawler.crawlFrom oracle d attempt (r + 1) delays =
        NonBrowserCrawler.crawlFrom oracle d (attempt + 1) r (delays ++ [d * attempt])) ∧
    (∀ (oracle : Nat → AttemptOutcome) (d attempt : Nat) (delays : List Nat)
        (ct body : String) (status : Nat),
      oracle attempt = .response ct body status →
      containsSubstr ct "text/html" = false →
      NonBrowserCrawler.crawlFrom oracle d attempt 0 delays =
        { success := false, error := some ("Non-HTML content type: " ++ ct),
          shouldFallbackToBrowser :=
            some (NonBrowserCrawler.shouldFallbackToBrowser ("Non-HTML content type: " ++ ct)),
          delays := delays, attemptsUsed := attempt }) ∧
    (∀ (oracle : Nat → AttemptOutcome) (d attempt : Nat) (delays : List Nat)
        (msg : String),
      oracle attempt = .failure msg →
      NonBrowserCrawler.crawlFrom oracle d attempt 0 delays =
        { success := false, error := some msg,
          shouldFallbackToBrowser := some (NonBrowserCrawler.shouldFallbackToBrowser msg),
          delays := delays, attemptsUsed := attempt }) ∧
    NonBrowserCrawler.maxRetries = 2 ∧ NonBrowserCrawler.maxRedirects = 5 ∧
    (∀ oracle, NonBrowserCrawler.crawlUrl oracle =
      NonBrowserCrawler.crawlFrom oracle NonBrowserCrawler.retryDelay 1
        NonBrowserCrawler.maxRetries []) := by
  refine ⟨?_, ?_, ?_, ?_, rfl, rfl, fun _ => rfl⟩
  · intro oracle d attempt r delays ct body status h hct
    rw [NonBrowserCrawler.crawlFrom, h]
    simp [hct]
  · intro oracle d attempt r delays msg h
    rw [NonBrowserCrawler.crawlFrom, h]
  · intro oracle d attempt delays ct body status h hct
    rw [NonBrowserCrawler.crawlFrom, h]
    simp [hct]
  · intro oracle d attempt delays msg h
    rw [NonBrowserCrawler.crawlFrom, h]

/-- Witness for C7's amended theorem at the concrete oracle `c7Oracle`. -/
theorem claim7_retry_discipline_witness :
    NonBrowserCrawler.crawlFrom c7Oracle 1000 1 2 [] =
      NonBrowserCrawler.crawlFrom c7Oracle 1000 2 1 [1000 * 1] :=
  claim7_retry_discipline.1 c7Oracle 1000 1 1 [] "application/json" "{}" 200 rfl (by decide)

/-- Claim C8: after retries exhaust, `crawlUrl` returns a structured
`success := false` result carrying the error and the
`shouldFallbackToBrowser` hint; the hint is true for timeout,
empty/no-content and script-dependency signatures and for 403/503/
anti-bot signatures, and false for name-resolution, connection-refused
and certificate errors. -/
theorem claim8_failure_classification :
    (∀ (oracle : Nat → AttemptOutcome) (d attempt : Nat) (delays : List Nat)
        (msg : String),
      oracle attempt = .failure msg →
      NonBrowserCrawler.crawlFrom oracle d attempt 0 delays =
        { success := false, error := some msg,
          shouldFallbackToBrowser := some (NonBrowserCrawler.shouldFallbackToBrowser msg),
          delays := delays, attemptsUsed := attempt }) ∧
    (∀ m : String, containsSubstr (jsToLower m) "timeout" = true →
      NonBrowserCrawler.shouldFallbackToBrowser m = true) ∧
    (∀ m : String, containsSubstr (jsToLower m) "empty" = true →
      NonBrowserCrawler.shouldFallbackToBrowser m = true) ∧
    (∀ m : String, containsSubstr (jsToLower m) "no content" = true →
      NonBrowserCrawler.shouldFallbackToBrowser m = true) ∧
    (∀ m : String, containsSubstr (jsToLower m) "javascript" = true →
      NonBrowserCrawler.shouldFallbackToBrowser m = true) ∧
    (∀ m : String,
      containsSubstr (jsToLower m) "timeout" = false →
      containsSubstr (jsToLower m) "empty" = false →
      containsSubstr (jsToLower m) "no content" = false →
      containsSubstr (jsToLower m) "javascript" = false →
      containsSubstr (jsToLower m) "enotfound" = false →
      containsSubstr (jsToLower m) "econnrefused" = false →
      containsSubstr (jsToLower m) "certificate" = false →
      (containsSubstr (jsToLower m) "403" = true ∨
        containsSubstr (jsToLower m) "503" = true ∨
        containsSubstr (jsToLower m) "cloudflare" = true) →
      NonBrowserCrawler.shouldFallbackToBrowser m = true) ∧
    (∀ m : String,
      containsSubstr (jsToLower m) "timeout" = false →
      containsSubstr (jsToLower m) "empty" = false →
      containsSubstr (jsToLower m) "no content" = false →
      containsSubstr (jsToLower m) "javascript" = false →
      (containsSubstr (jsToLower m) "enotfound" = true ∨
        containsSubstr (jsToLower m) "econnrefused" = true ∨
        containsSubstr (jsToLower m) "certificate" = true) →
      NonBrowserCrawler.shouldFallbackToBrowser m = false) := by
  refine ⟨?_, ?_, ?_, ?_, ?_, ?_, ?_⟩
  · intro oracle d attempt delays msg h
    rw [NonBrowserCrawler.crawlFrom, h]
  · intro m h; simp [NonBrowserCrawler.shouldFallbackToBrowser, h]
  · intro m h; simp [NonBrowserCrawler.shouldFallbackToBrowser, h]
  · intro m h; simp [NonBrowserCrawler.shouldFallbackToBrowser, h]
  · intro m h; simp [NonBrowserCrawler.shouldFallbackToBrowser, h]
  · intro m h1 h2 h3 h4 h5 h6 h7 h8
    rcases h8 with h8 | h8 | h8 <;>
      simp [NonBrowserCrawler.shouldFallbackToBrowser, h1, h2, h3, h4, h5, h6, h7, h8]
  · intro m h1 h2 h3 h4 h5
    rcases h5 with h5 | h5 | h5 <;>
      simp [NonBrowserCrawler.shouldFallbackToBrowser, h1, h2, h3, h4, h5]

/-- Witness for C8 at a DNS failure: the crawl returns the structured
result with a false fallback hint, and representative messages of each
category classify as claimed. -/
theorem claim8_failure_classification_witness :
    NonBrowserCrawler.crawlFrom c8Oracle 1000 3 0 [1000, 2000] =
      { success := false, error := some "getaddrinfo ENOTFOUND example.invalid",
        shouldFallbackToBrowser :=
          some (NonBrowserCrawler.shouldFallbackToBrowser
            "getaddrinfo ENOTFOUND example.invalid"),
        delays := [1000, 2000], attemptsUsed := 3 } ∧
    NonBrowserCrawler.shouldFallbackToBrowser "timeout of 30000ms exceeded" = true ∧
    NonBrowserCrawler.shouldFallbackToBrowser "Request failed with status code 403" = true ∧
    NonBrowserCrawler.shouldFallbackToBrowser "getaddrinfo ENOTFOUND example.invalid" = false ∧
    NonBrowserCrawler.shouldFallbackToBrowser "certificate has expired" = false :=
  ⟨claim8_failure_classification.1 c8Oracle 1000 3 [1000, 2000]
      "getaddrinfo ENOTFOUND example.invalid" rfl,
    claim8_failure_classification.2.1 "timeout of 30000ms exceeded" (by decide),
    (claim8_failure_classification.2.2.2.2.2.1 "Request failed with status code 403"
      (by decide) (by decide) (by decide) (by decide) (by decide) (by decide) (by decide)
      (Or.inl (by decide))),
    (claim8_failure_classification.2.2.2.2.2.2 "getaddrinfo ENOTFOUND example.invalid"
      (by decide) (by decide) (by decide) (by decide) (Or.inl (by decide))),
    (claim8_failure_classification.2.2.2.2.2.2 "certificate has expired"
      (by decide) (by decide) (by decide) (by decide) (Or.inr (Or.inr (by decide))))⟩

/-- The `checkOnlyLinkPatterns` fold computes the two counts. -/
theorem checkOnly_foldl_counts (blocks : List Block) :
    ∀ (l : List Nat) (cc lc : Nat),
      l.foldl (checkOnlyStep blocks) (cc, lc) =
        (cc + l.countP (fun i => strTruthy (blocks.getD i default).content ||
            strTruthy (blocks.getD i default).title),
          lc + l.countP (fun i => (strTruthy (blocks.getD i default).content ||
            strTruthy (blocks.getD i default).title) && hasLinkWithin3 blocks i)) := by
  intro l
  induction l with
  | nil => intro cc lc; simp
  | cons a t ih =>
    intro cc lc
    rw [List.foldl_cons, List.countP_cons, List.countP_cons]
    show t.foldl (checkOnlyStep blocks) (checkOnlyStep blocks (cc, lc) a) = _
    cases hc : (strTruthy (blocks.getD a default).content ||
        strTruthy (blocks.getD a default).title)
    · simp at hc
      simp [checkOnlyStep, hc.1, hc.2, ih, Prod.ext_iff] <;> omega
    · simp at hc
      by_cases hl : hasLinkWithin3 blocks a = true
      · simp [checkOnlyStep, hc, hl, ih, Prod.ext_iff] <;> omega
      · simp [checkOnlyStep, hc, hl, ih, Prod.ext_iff] <;> omega

/-- Claim C6 counterexample: a single unlinked two-character content block
gives an empty extraction although the link-pattern fraction condition is
false (the Block Filter dropped everything), so "returns an empty list if
and only if the fraction exceeds 0.7" fails in the only-if direction. -/
theorem claim6_cex_empty_without_suppression :
    extractMainContentBlocks [bShort] [] = [] ∧
    checkOnlyLinkPatterns [bShort] = false ∧
    contentBearingCount [bShort] = 1 ∧
    linkedContentCount [bShort] = 0 := by
  decide

/-- Claim C6 (amended): with no surviving regions, the link-pattern-only
*suppression* — returning empty while bypassing the Block Filter — fires
exactly when the count of blocks with non-empty title or content is
positive and more than 70% of them have a link within the next 3 blocks;
otherwise the Block Filter is applied to the whole unsegmented sequence
(its output may still be empty if it drops every block). -/
theorem claim6_no_region_suppression :
    (∀ blocks : List Block, checkOnlyLinkPatterns blocks =
      (decide (0 < contentBearingCount blocks) &&
        decide (7 * contentBearingCount blocks < 10 * linkedContentCount blocks))) ∧
    (∀ blocks : List Block, checkOnlyLinkPatterns blocks = true →
      extractMainContentBlocks blocks [] = []) ∧
    (∀ blocks : List Block, checkOnlyLinkPatterns blocks = false →
      (extractMainContentBlocks blocks []).map FilteredBlock.block =
        blocks.filter shouldIncludeBlock) := by
  refine ⟨?_, ?_, ?_⟩
  · intro blocks
    unfold checkOnlyLinkPatterns contentBearingCount linkedContentCount
    rw [checkOnly_foldl_counts blocks (List.range blocks.length) 0 0]
    simp
  · intro blocks h
    unfold extractMainContentBlocks
    simp [h]
  · intro blocks h
    unfold extractMainContentBlocks
    simp only [List.isEmpty_nil, if_true, h, Bool.false_eq_true, if_false]
    rw [List.map_map]
    have : (FilteredBlock.block ∘ fun p : Nat × Block =>
        ({ block := p.2, regionReason := "no_region_filter", blockIndex := p.1,
           isMainContent := true,
           contentWordCount := match p.2.content with
             | some c => countWords c
             | none => 0 } : FilteredBlock)) = Prod.snd := by
      funext p; rfl
    rw [this, List.enum_map_snd]

/-- Witness for C6's amended theorem: a linked navigation-like page is
suppressed to empty, and an unlinked page goes through the Block Filter. -/
theorem claim6_no_region_suppression_witness :
    extractMainContentBlocks [bShortLinked] [] = [] ∧
    (extractMainContentBlocks [bShort] []).map FilteredBlock.block =
      [bShort].filter shouldIncludeBlock :=
  ⟨claim6_no_region_suppression.2.1 [bShortLinked] (by decide),
    claim6_no_region_suppression.2.2 [bShort] (by decide)⟩

/-- Splitting `List.range'` at an interior point. -/

theorem range'_split (s a b : Nat) :
    List.range' s (a + b) = List.range' s a ++ List.range' (s + a) b := by
  induction a generalizing s with
  | zero => simp
  | succ a ih =>
    have hsa : s + 1 + a = s + (a + 1) := by omega
    rw [Nat.succ_add, List.range'_succ, ih (s + 1), hsa, List.range'_succ, List.cons_append]

/-- The pruner loop ignores a prefix of indices that are not link pairs
(its consecutive counter stays 0 and nothing else changes). -/
theorem clp_skip (blocks : List Block) :
    ∀ (l rest : List Nat) (aE p : Nat),
      (∀ i ∈ l, linkPair blocks i = false) →
      checkLinkPatternsLoop blocks (l ++ rest) aE p 0 =
        checkLinkPatternsLoop blocks rest aE p 0 := by
  intro l
  induction l with
  | nil => intro rest aE p _; rfl
  | cons a t ih =>
    intro rest aE p h
    have ha : linkPair blocks a = false := h a (List.mem_cons_self a t)
    rw [List.cons_append]
    cases hv : isValidContentForPattern (blocks.getD a default)
    · simp only [checkLinkPatternsLoop, hv, Bool.false_eq_true, if_false]
      exact ih rest aE p (fun i hi => h i (List.mem_cons_of_mem a hi))
    · have hl : hasAssociatedLink blocks a = false := by
        unfold linkPair at ha
        rw [hv] at ha
        simpa using ha
      simp only [checkLinkPatternsLoop, hv, hl, eq_self_iff_true, if_true,
        Bool.false_eq_true, if_false]
      exact ih rest aE p (fun i hi => h i (List.mem_cons_of_mem a hi))

/-- A full run of link pairs completes the consecutive counter: starting
with counter `c` and `c + m = 14`, the pair run `j, …, j + m` makes the
loop break at index `j + m` with `adjustedEnd = (j + m) - 14`. -/
theorem clp_run (blocks : List Block) :
    ∀ (m j c p aE : Nat) (rest : List Nat),
      c + m = 14 →
      (∀ k, j ≤ k → k ≤ j + m → linkPair blocks k = true) →
      checkLinkPatternsLoop blocks (List.range' j (m + 1) ++ rest) aE p c =
        (j + m - 14, p + (m + 1), 15) := by
  intro m
  induction m with
  | zero =>
    intro j c p aE rest hc h
    have hj := h j le_rfl (by omega)
    unfold linkPair at hj
    rw [Bool.and_eq_true] at hj
    have hc14 : c = 14 := by omega
    subst hc14
    show checkLinkPatternsLoop blocks (j :: rest) aE p 14 = _
    simp only [checkLinkPatternsLoop, hj.1, hj.2, eq_self_iff_true, if_true]
    norm_num
  | succ m ih =>
    intro j c p aE rest hc h
    have hj := h j le_rfl (by omega)
    unfold linkPair at hj
    rw [Bool.and_eq_true] at hj
    rw [List.range'_succ, List.cons_append]
    generalize hL : List.range' (j + 1) (m + 1) ++ rest = L
    simp only [checkLinkPatternsLoop, hj.1, hj.2, eq_self_iff_true, if_true]
    have h15 : ¬(c + 1 ≥ 15) := by omega
    rw [if_neg h15, ← hL]
    rw [ih (j + 1) (c + 1) (p + 1) aE rest (by omega)
      (fun k hk1 hk2 => h k (by omega) (by omega))]
    simp only [Prod.mk.injEq]
    exact ⟨by omega, by omega, trivial⟩

/-- If no window of 15 consecutive indices inside `[startI, endI]` is all
link pairs, the pruner loop never breaks: `adjustedEnd` keeps its initial
value and the final consecutive counter is at most 14. The counter `c`
must count a run of pairs immediately before the current index `m`. -/
theorem clp_nobreak (blocks : List Block) (startI endI : Nat)
    (hwin : ∀ s, startI ≤ s → s + 14 ≤ endI →
      ∃ t, s ≤ t ∧ t ≤ s + 14 ∧ linkPair blocks t = false) :
    ∀ (k m c aE p : Nat),
      m + k = endI + 1 → startI ≤ m → c ≤ m - startI → c ≤ 14 →
      (∀ t, m - c ≤ t → t < m → linkPair blocks t = true) →
      (checkLinkPatternsLoop blocks (List.range' m k) aE p c).1 = aE ∧
      (checkLinkPatternsLoop blocks (List.range' m k) aE p c).2.2 ≤ 14 := by
  intro k
  induction k with
  | zero =>
    intro m c aE p _ _ _ h4 _
    exact ⟨rfl, h4⟩
  | succ k ih =>
    intro m c aE p h1 h2 h3 h4 h5
    rw [List.range'_succ]
    cases hv : isValidContentForPattern (blocks.getD m default)
    · simp only [checkLinkPatternsLoop, hv, Bool.false_eq_true, if_false]
      exact ih (m + 1) 0 aE p (by omega) (by omega) (by omega) (by omega)
        (fun t h6 h7 => (by omega : False).elim)
    · cases hl : hasAssociatedLink blocks m
      · simp only [checkLinkPatternsLoop, hv, hl, eq_self_iff_true, if_true,
          Bool.false_eq_true, if_false]
        exact ih (m + 1) 0 aE p (by omega) (by omega) (by omega) (by omega)
          (fun t h6 h7 => (by omega : False).elim)
      · by_cases h15 : (c + 1 ≥ 15)
        · exfalso
          have hc14 : c = 14 := by omega
          obtain ⟨t, ht1, ht2, ht3⟩ := hwin (m - 14) (by omega) (by omega)
          rcases Nat.lt_or_ge t m with hlt | hge
          · have htrue := h5 t (by omega) hlt
            rw [htrue] at ht3
            exact Bool.noConfusion ht3
          · have htm : t = m := by omega
            subst htm
            unfold linkPair at ht3
            rw [hv, hl] at ht3
            simp at ht3
        · simp only [checkLinkPatternsLoop, hv, hl, eq_self_iff_true, if_true]
          rw [if_neg h15]
          refine ih (m + 1) (c + 1) aE (p + 1) (by omega) (by omega) (by omega) (by omega) ?_
          intro t h6 h7
          rcases Nat.lt_or_ge t m with hlt | hge
          · exact h5 t (by omega) hlt
          · have htm : t = m := by omega
            subst htm
            unfold linkPair
            rw [hv, hl]
            rfl

/-- Claim C4: in the Link-Pattern Pruner, a consecutive-pair counter
reaching 15 at index `i = s + 14` truncates the region's end to
`i - 14 = s`; when no window of 15 consecutive pairs exists (so runs have
length at most 14) the region's end is unchanged; and every region in the
pruner's output satisfies `start ≤ end` — one whose truncated end fell
before its start is dropped. -/
theorem claim4_link_pattern_pruner :
    (∀ (blocks : List Block) (r : Region) (s : Nat),
      r.start ≤ s → s + 14 ≤ r.endIdx →
      (∀ k, r.start ≤ k → k < s → linkPair blocks k = false) →
      (∀ k, s ≤ k → k ≤ s + 14 → linkPair blocks k = true) →
      checkLinkPatterns blocks [r] =
        [{ start := r.start, endIdx := s, reason := r.reason,
           isFirstRegion := r.isFirstRegion, linkPatternDetected := true,
           contentLinkPairs := 15 }]) ∧
    (∀ (blocks : List Block) (r : Region),
      r.start ≤ r.endIdx →
      (∀ s, r.start ≤ s → s + 14 ≤ r.endIdx →
        ∃ t, s ≤ t ∧ t ≤ s + 14 ∧ linkPair blocks t = false) →
      ∃ p, checkLinkPatterns blocks [r] =
        [{ start := r.start, endIdx := r.endIdx, reason := r.reason,
           isFirstRegion := r.isFirstRegion, linkPatternDetected := false,
           contentLinkPairs := p }]) ∧
    (∀ (blocks : List Block) (regions : List Region) (q : PrunedRegion),
      q ∈ checkLinkPatterns blocks regions → q.start ≤ q.endIdx) := by
  refine ⟨?_, ?_, ?_⟩
  · intro blocks r s h1 h2 hpre hrun
    have hcount : r.endIdx + 1 - r.start =
        (s - r.start) + (15 + (r.endIdx - s - 14)) := by omega
    have hsr : r.start + (s - r.start) = s := by omega
    have hskip := clp_skip blocks (List.range' r.start (s - r.start))
      (List.range' s 15 ++ List.range' (s + 15) (r.endIdx - s - 14)) r.endIdx 0
      (fun i hi => by
        rw [List.mem_range'_1] at hi
        exact hpre i (by omega) (by omega))
    have hloop : checkLinkPatternsLoop blocks
        (List.range' r.start (r.endIdx + 1 - r.start)) r.endIdx 0 0 = (s, 15, 15) := by
      rw [hcount, range'_split, hsr, range'_split, hskip,
        show List.range' s 15 = List.range' s (14 + 1) from rfl,
        clp_run blocks 14 s 0 0 r.endIdx (List.range' (s + 15) (r.endIdx - s - 14))
          (by omega) (fun k hk1 hk2 => hrun k hk1 (by omega))]
      norm_num
    unfold checkLinkPatterns
    simp only [List.filterMap_cons, List.filterMap_nil, hloop]
    rw [if_pos h1]
    rfl
  · intro blocks r hse hwin
    have hnb := clp_nobreak blocks r.start r.endIdx hwin (r.endIdx + 1 - r.start)
      r.start 0 r.endIdx 0 (by omega) le_rfl (by omega) (by omega)
      (fun t h6 h7 => (by omega : False).elim)
    obtain ⟨hr1, hr2⟩ := hnb
    refine ⟨(checkLinkPatternsLoop blocks
      (List.range' r.start (r.endIdx + 1 - r.start)) r.endIdx 0 0).2.1, ?_⟩
    unfold checkLinkPatterns
    simp only [List.filterMap_cons, List.filterMap_nil]
    rw [hr1, if_pos hse]
    have hdec : decide ((checkLinkPatternsLoop blocks
        (List.range' r.start (r.endIdx + 1 - r.start)) r.endIdx 0 0).2.2 ≥ 15) = false :=
      decide_eq_false (by omega)
    rw [hdec]
  · intro blocks regions q hq
    unfold checkLinkPatterns at hq
    rw [List.mem_filterMap] at hq
    obtain ⟨r, hr, heq⟩ := hq
    dsimp only at heq
    by_cases hg : r.start ≤ (checkLinkPatternsLoop blocks
        (List.range' r.start (r.endIdx + 1 - r.start)) r.endIdx 0 0).1
    · rw [if_pos hg] at heq
      obtain rfl := Option.some.inj heq
      exact hg
    · rw [if_neg hg] at heq
      exact absurd heq (by simp)

/-- Witness for C4: 15 consecutive pairs truncate the region `[0, 14]` to
`[0, 0]` with the pattern flag set; 14 pairs followed by a non-pair leave
it untouched; the surviving regions satisfy `start ≤ end`. -/
theorem claim4_link_pattern_pruner_witness :
    checkLinkPatterns c4RunBlocks [c4Region] =
      [{ start := 0, endIdx := 0, reason := "content_start", isFirstRegion := true,
         linkPatternDetected := true, contentLinkPairs := 15 }] ∧
    (∃ p, checkLinkPatterns c4NoRunBlocks [c4Region] =
      [{ start := 0, endIdx := 14, reason := "content_start", isFirstRegion := true,
         linkPatternDetected := false, contentLinkPairs := p }]) ∧
    (⟨0, 0, "content_start", true, true, 15⟩ : PrunedRegion).start ≤
      (⟨0, 0, "content_start", true, true, 15⟩ : PrunedRegion).endIdx :=
  ⟨claim4_link_pattern_pruner.1 c4RunBlocks c4Region 0 (by decide) (by decide)
      (fun k hk1 hk2 => absurd hk2 (Nat.not_lt_zero k))
      (fun k hk1 hk2 => by
        have hk : k ≤ 14 := by omega
        interval_cases k <;> decide),
    claim4_link_pattern_pruner.2.1 c4NoRunBlocks c4Region (by decide)
      (fun s hs1 hs2 => ⟨14, by
        have he : c4Region.endIdx = 14 := rfl
        omega, by omega, by decide⟩),
    claim4_link_pattern_pruner.2.2 c4RunBlocks [c4Region]
      ⟨0, 0, "content_start", true, true, 15⟩ (by decide)⟩

theorem findNext_some_bounds (blocks : List Block) (base j : Nat)
    (h : findNextValidContent blocks base = some j) :
    base + 1 ≤ j ∧ j ≤ blocks.length - 1 ∧ j ≤ base + 10 ∧
      isValidContentStart (blocks.getD j default) = true := by
  unfold findNextValidContent at h
  have hmem := List.mem_of_find?_eq_some h
  have hp := List.find?_some h
  rw [List.mem_range'_1] at hmem
  have h1 := Nat.min_le_left (base + 10) (blocks.length - 1)
  have h2 := Nat.min_le_right (base + 10) (blocks.length - 1)
  exact ⟨by omega, by omega, by omega, hp⟩

theorem findNext_none_bounds (blocks : List Block) (base : Nat)
    (h : findNextValidContent blocks base = none) :
    ∀ j, base + 1 ≤ j → j ≤ min (base + 10) (blocks.length - 1) →
      isValidContentStart (blocks.getD j default) = false := by
  unfold findNextValidContent at h
  rw [List.find?_eq_none] at h
  intro j hj1 hj2
  have := h j (by rw [List.mem_range'_1]; omega)
  simpa using this

theorem windowOk_replace (f10 : Bool) (regs : List Region) (c c' : Region) (fst : Bool)
    (hr : c'.extendRange = c.extendRange)
    (h : WindowOk f10 ⟨regs, some c, fst⟩) :
    WindowOk f10 ⟨regs, some c', fst⟩ := by
  unfold WindowOk allRegions at h ⊢
  cases regs with
  | nil =>
    simp only [List.nil_append, Option.toList_some] at h ⊢
    exact ⟨h.1, hr.trans h.2.1, h.2.2⟩
  | cons r0 rs =>
    simp only [List.cons_append, Option.toList_some] at h ⊢
    refine ⟨h.1, h.2.1, ?_⟩
    intro q hq
    rw [List.mem_append] at hq
    rcases hq with hq | hq
    · exact h.2.2 q (by rw [List.mem_append]; exact Or.inl hq)
    · rw [List.mem_singleton] at hq
      subst hq
      rw [hr]
      exact h.2.2 c (by rw [List.mem_append]; simp)

theorem detectPhase1_inv (blocks : List Block) (f10 : Bool) (n : Nat) (st : DetectState)
    (hn : n < blocks.length) (h : DetectInv blocks.length f10 n st) :
    DetectInvMid blocks.length f10 n (detectPhase1 blocks f10 st n) := by
  unfold DetectInv at h
  obtain ⟨hreg, hchain, hcur, hwin⟩ := h
  unfold DetectInvMid
  unfold detectPhase1
  cases hv : isValidContentStart (blocks.getD n default)
  · simp only [hv, Bool.false_eq_true, if_false]
    refine ⟨hreg, hchain, ?_, hwin⟩
    intro c hc
    unfold CurOk at hcur
    obtain ⟨a1, a2, a3, a4, a5, a6⟩ := hcur c hc
    exact ⟨a1, a2, a3, Nat.le_of_lt a4, a5, a6⟩
  · simp only [hv, eq_self_iff_true, if_true]
    cases hcurEq : st.currentRegion with
    | none =>
      have hall : allRegions st = st.regions := by
        unfold allRegions
        rw [hcurEq]
        simp
      refine ⟨hreg, hchain, ?_, ?_⟩
      · intro c hc
        simp only [Option.toList_some, List.mem_singleton] at hc
        subst hc
        have her : (if st.isFirstContentRegion && !f10 then 20 else 10) = 10 ∨
            (if st.isFirstContentRegion && !f10 then 20 else 10) = 20 := by
          split
          · right; rfl
          · left; rfl
        unfold CurOkMid
        dsimp only
        refine ⟨le_rfl, ?_, ?_, le_rfl, her, ?_⟩
        · refine Nat.le_min.mpr ⟨?_, by omega⟩
          rcases her with h | h <;> omega
        · exact Nat.lt_of_le_of_lt (Nat.min_le_right _ _) (by omega)
        · intro r hrr
          unfold RegClosedOk at hreg
          exact (hreg r hrr).2.2.2
      · unfold WindowOk at hwin ⊢
        rw [hall] at hwin
        unfold allRegions
        cases hregs : st.regions with
        | nil =>
          rw [hregs] at hwin
          simp only [List.nil_append, Option.toList_some]
          refine ⟨trivial, ?_, by simp⟩
          have hFirst : st.isFirstContentRegion = true := hwin
          rw [hFirst]
          cases f10 <;> rfl
        | cons r0 rs =>
          rw [hregs] at hwin
          simp only [List.cons_append, Option.toList_some]
          obtain ⟨hFst, hhead, htail⟩ := hwin
          refine ⟨trivial, hhead, ?_⟩
          intro q hq
          rw [List.mem_append] at hq
          rcases hq with hq | hq
          · exact htail q hq
          · rw [List.mem_singleton] at hq
            subst hq
            rw [hFst]
            rfl
    | some r =>
      unfold CurOk at hcur
      obtain ⟨b1, b2, b3, b4, b5, b6⟩ := hcur r (by rw [hcurEq]; simp)
      have hminr : n ≤ min (n + r.extendRange - 1) (blocks.length - 1) := by
        refine Nat.le_min.mpr ⟨?_, by omega⟩
        rcases b5 with h | h <;> omega
      have hminl : min (n + r.extendRange - 1) (blocks.length - 1) < blocks.length :=
        Nat.lt_of_le_of_lt (Nat.min_le_right _ _) (by omega)
      dsimp only
      by_cases hgt : min (n + r.extendRange - 1) (blocks.length - 1) > r.endIdx
      · rw [if_pos hgt]
        refine ⟨hreg, hchain, ?_, ?_⟩
        · intro c hc
          simp only [Option.toList_some, List.mem_singleton] at hc
          subst hc
          unfold CurOkMid
          dsimp only
          exact ⟨by omega, hminr, hminl, by omega, b5, b6⟩
        · have hst : st = ⟨st.regions, some r, st.isFirstContentRegion⟩ := by
            rw [← hcurEq]
          rw [hst] at hwin
          exact windowOk_replace f10 st.regions r _ st.isFirstContentRegion rfl hwin
      · rw [if_neg hgt]
        refine ⟨hreg, hchain, ?_, ?_⟩
        · intro c hc
          simp only [Option.toList_some, List.mem_singleton] at hc
          subst hc
          unfold CurOkMid
          dsimp only
          exact ⟨by omega, by omega, b3, by omega, b5, b6⟩
        · have hst : st = ⟨st.regions, some r, st.isFirstContentRegion⟩ := by
            rw [← hcurEq]
          rw [hst] at hwin
          exact windowOk_replace f10 st.regions r _ st.isFirstContentRegion rfl hwin

theorem detectPhase2_inv (blocks : List Block) (f10 : Bool) (n : Nat) (st : DetectState)
    (hn : n < blocks.length) (h : DetectInvMid blocks.length f10 n st) :
    DetectInv blocks.length f10 (n + 1) (detectPhase2 blocks st n) := by
  unfold DetectInvMid at h
  obtain ⟨hreg, hchain, hcur, hwin⟩ := h
  have hregMono : ∀ r ∈ st.regions, RegClosedOk blocks.length (n + 1) r := by
    intro r hr
    unfold RegClosedOk at hreg ⊢
    obtain ⟨a1, a2, a3, a4⟩ := hreg r hr
    exact ⟨a1, a2, a3, by omega⟩
  unfold DetectInv
  unfold detectPhase2
  cases hcurEq : st.currentRegion with
  | none =>
    refine ⟨hregMono, hchain, ?_, hwin⟩
    intro c hc
    rw [hcurEq] at hc
    simp at hc
  | some c =>
    unfold CurOkMid at hcur
    obtain ⟨b1, b2, b3, b4, b5, b6⟩ := hcur c (by rw [hcurEq]; simp)
    have hst : st = ⟨st.regions, some c, st.isFirstContentRegion⟩ := by
      rw [← hcurEq]
    dsimp only
    by_cases hge : n ≥ c.endIdx
    · rw [if_pos hge]
      cases hfind : findNextValidContent blocks c.lastValidContentIndex with
      | some j =>
        obtain ⟨hj1, hj2, hj3, hj4⟩ := findNext_some_bounds blocks _ j hfind
        refine ⟨hregMono, hchain, ?_, ?_⟩
        · intro c' hc'
          simp only [Option.toList_some, List.mem_singleton] at hc'
          subst hc'
          unfold CurOk
          dsimp only
          refine ⟨by omega, ?_, ?_, by omega, b5, b6⟩
          · refine Nat.le_min.mpr ⟨?_, by omega⟩
            rcases b5 with h | h <;> omega
          · exact Nat.lt_of_le_of_lt (Nat.min_le_right _ _) (by omega)
        · rw [hst] at hwin
          exact windowOk_replace f10 st.regions c _ st.isFirstContentRegion rfl hwin
      | none =>
        refine ⟨?_, ?_, ?_, ?_⟩
        · intro r hr
          dsimp only at hr
          rw [List.mem_append] at hr
          rcases hr with hr | hr
          · exact hregMono r hr
          · rw [List.mem_singleton] at hr
            subst hr
            unfold RegClosedOk
            exact ⟨b1, b2, b3, by omega⟩
        · dsimp only
          rw [List.chain'_append]
          refine ⟨hchain, List.chain'_singleton c, ?_⟩
          intro x hx y hy
          simp only [List.head?_cons, Option.mem_def, Option.some.injEq] at hy
          subst hy
          obtain ⟨hne, hxeq⟩ := List.mem_getLast?_eq_getLast hx
          exact b6 x (hxeq ▸ List.getLast_mem hne)
        · intro c' hc'
          simp at hc'
        · rw [hst] at hwin
          unfold WindowOk allRegions at hwin ⊢
          simp only [Option.toList_some, Option.toList_none, List.append_nil] at hwin ⊢
          exact hwin
    · rw [if_neg hge]
      refine ⟨hregMono, hchain, ?_, ?_⟩
      · intro c' hc'
        rw [hcurEq] at hc'
        simp only [Option.toList_some, List.mem_singleton] at hc'
        subst hc'
        unfold CurOk
        exact ⟨b1, b2, b3, by omega, b5, b6⟩
      · exact hwin

theorem detectStep_inv (blocks : List Block) (f10 : Bool) (n : Nat) (st : DetectState)
    (hn : n < blocks.length) (h : DetectInv blocks.length f10 n st) :
    DetectInv blocks.length f10 (n + 1) (detectStep blocks f10 st n) :=
  detectPhase2_inv blocks f10 n _ hn (detectPhase1_inv blocks f10 n st hn h)

theorem detect_foldl_inv (blocks : List Block) (f10 : Bool) :
    ∀ (k n : Nat) (st : DetectState), n + k ≤ blocks.length →
      DetectInv blocks.length f10 n st →
      DetectInv blocks.length f10 (n + k)
        ((List.range' n k).foldl (detectStep blocks f10) st) := by
  intro k
  induction k with
  | zero => intro n st _ hi; simpa using hi
  | succ k ih =>
    intro n st h hi
    rw [List.range'_succ, List.foldl_cons]
    have h1 := detectStep_inv blocks f10 n st (by omega) hi
    have h2 := ih (n + 1) (detectStep blocks f10 st n) (by omega) h1
    have heq : n + (k + 1) = (n + 1) + k := by omega
    rw [heq]
    exact h2

theorem detect_init_inv (blocks : List Block) (f10 : Bool) :
    DetectInv blocks.length f10 0
      { regions := [], currentRegion := none, isFirstContentRegion := true } := by
  unfold DetectInv WindowOk allRegions
  refine ⟨by simp, List.chain'_nil, by simp, ?_⟩
  simp

theorem detect_final_inv (blocks : List Block) :
    DetectInv blocks.length (hasValidContentInFirst10 blocks) blocks.length
      ((List.range blocks.length).foldl
        (detectStep blocks (hasValidContentInFirst10 blocks))
        { regions := [], currentRegion := none, isFirstContentRegion := true }) := by
  rw [List.range_eq_range']
  have := detect_foldl_inv blocks (hasValidContentInFirst10 blocks) blocks.length 0
    { regions := [], currentRegion := none, isFirstContentRegion := true }
    (by omega) (detect_init_inv blocks _)
  simpa using this

theorem detect_eq_allRegions (blocks : List Block) :
    detectContentRegions blocks = allRegions
      ((List.range blocks.length).foldl
        (detectStep blocks (hasValidContentInFirst10 blocks))
        { regions := [], currentRegion := none, isFirstContentRegion := true }) := by
  unfold detectContentRegions allRegions
  cases hfin : ((List.range blocks.length).foldl
      (detectStep blocks (hasValidContentInFirst10 blocks))
      { regions := [], currentRegion := none, isFirstContentRegion := true }).currentRegion <;>
    simp [hfin]

/-- Claim C9: for a non-empty block sequence, every region produced by
`detectContentRegions` satisfies `start ≤ end ≤ len - 1`, and the regions
are ordered and pairwise non-overlapping: each region's start is strictly
greater than the previous region's end. -/
theorem claim9_region_invariants (blocks : List Block) (hne : blocks ≠ []) :
    (∀ r ∈ detectContentRegions blocks,
      r.start ≤ r.endIdx ∧ r.endIdx ≤ blocks.length - 1) ∧
    List.Chain' (fun a b => a.endIdx < b.start) (detectContentRegions blocks) := by
  have hlen : 0 < blocks.length := List.length_pos.mpr hne
  rw [detect_eq_allRegions]
  set stF := (List.range blocks.length).foldl
    (detectStep blocks (hasValidContentInFirst10 blocks))
    { regions := [], currentRegion := none, isFirstContentRegion := true } with hstF
  have hinv := detect_final_inv blocks
  rw [← hstF] at hinv
  unfold DetectInv at hinv
  obtain ⟨hreg, hchain, hcur, _⟩ := hinv
  constructor
  · intro r hr
    unfold allRegions at hr
    rw [List.mem_append] at hr
    rcases hr with hr | hr
    · have := hreg r hr
      unfold RegClosedOk at this
      exact ⟨by omega, by omega⟩
    · rcases hfin : stF.currentRegion with _ | c
      · rw [hfin] at hr; simp at hr
      · rw [hfin] at hr
        simp only [Option.toList_some, List.mem_singleton] at hr
        subst hr
        have := hcur r (by rw [hfin]; simp)
        unfold CurOk at this
        exact ⟨by omega, by omega⟩
  · unfold allRegions
    rcases hfin : stF.currentRegion with _ | c
    · simpa using hchain
    · simp only [Option.toList_some]
      rw [List.chain'_append]
      refine ⟨hchain, List.chain'_singleton c, ?_⟩
      intro x hx y hy
      simp only [List.head?_cons, Option.mem_def, Option.some.injEq] at hy
      subst hy
      have hc := hcur c (by rw [hfin]; simp)
      unfold CurOk at hc
      obtain ⟨hgl, hxeq⟩ := List.mem_getLast?_eq_getLast hx
      exact hc.2.2.2.2.2 x (hxeq ▸ List.getLast_mem hgl)

/-- Witness for C9 at the concrete 20-block sequence `c3Blocks`. -/
theorem claim9_region_invariants_witness :
    ((⟨5, 19, "title_start", true, 10, 14⟩ : Region).start ≤
        (⟨5, 19, "title_start", true, 10, 14⟩ : Region).endIdx ∧
      (⟨5, 19, "title_start", true, 10, 14⟩ : Region).endIdx ≤ c3Blocks.length - 1) ∧
    List.Chain' (fun a b => a.endIdx < b.start) (detectContentRegions c3Blocks) :=
  ⟨(claim9_region_invariants c3Blocks (by decide)).1
      ⟨5, 19, "title_start", true, 10, 14⟩ (by decide),
    (claim9_region_invariants c3Blocks (by decide)).2⟩

/-- Claim C2: when nothing content-bearing is among the first 10 blocks,
the first detected region carries window 20 and all later ones window 10;
when something content-bearing is among the first 10, every region carries
window 10. Concretely: with indices 0–9 non-content-bearing and a title at
index 12, the region opens as `[12, min (12+19) (len-1)]` with window 20
(for lengths 40 and 20); with a title at index 0 the single region is
`[0, min 9 (len-1)]` with window 10. -/
theorem claim2_window_selection :
    (∀ (blocks : List Block) (r : Region) (rs : List Region),
      hasValidContentInFirst10 blocks = false →
      detectContentRegions blocks = r :: rs →
      r.extendRange = 20 ∧ ∀ q ∈ rs, q.extendRange = 10) ∧
    (∀ (blocks : List Block) (r : Region),
      hasValidContentInFirst10 blocks = true →
      r ∈ detectContentRegions blocks → r.extendRange = 10) ∧
    detectContentRegions c2Blocks40 = [⟨12, 31, "title_start", true, 20, 12⟩] ∧
    detectContentRegions c2Blocks20 = [⟨12, 19, "title_start", true, 20, 12⟩] ∧
    detectContentRegions c2BlocksFirst10 = [⟨0, 9, "title_start", true, 10, 0⟩] := by
  refine ⟨?_, ?_, by decide, by decide, by decide⟩
  · intro blocks r rs hf heq
    have hinv := detect_final_inv blocks
    unfold DetectInv at hinv
    obtain ⟨_, _, _, hwin⟩ := hinv
    rw [detect_eq_allRegions] at heq
    unfold WindowOk at hwin
    rw [heq, hf] at hwin
    obtain ⟨_, hhead, htail⟩ := hwin
    refine ⟨?_, htail⟩
    simpa using hhead
  · intro blocks r hf hmem
    have hinv := detect_final_inv blocks
    unfold DetectInv at hinv
    obtain ⟨_, _, _, hwin⟩ := hinv
    rw [detect_eq_allRegions] at hmem
    unfold WindowOk at hwin
    rcases hall : allRegions ((List.range blocks.length).foldl
        (detectStep blocks (hasValidContentInFirst10 blocks))
        { regions := [], currentRegion := none, isFirstContentRegion := true }) with _ | ⟨q, qs⟩
    · rw [hall] at hmem; simp at hmem
    · rw [hall] at hmem hwin
      rw [hf] at hwin
      obtain ⟨_, hhead, htail⟩ := hwin
      rw [List.mem_cons] at hmem
      rcases hmem with hmem | hmem
      · subst hmem; simpa using hhead
      · exact htail r hmem

/-- Witness for C2 at the two concrete sequences. -/
theorem claim2_window_selection_witness :
    Region.extendRange ⟨12, 31, "title_start", true, 20, 12⟩ = 20 ∧
    Region.extendRange ⟨0, 9, "title_start", true, 10, 0⟩ = 10 :=
  ⟨(claim2_window_selection.1 c2Blocks40 ⟨12, 31, "title_start", true, 20, 12⟩ []
      (by decide) (by decide)).1,
    claim2_window_selection.2.1 c2BlocksFirst10 ⟨0, 9, "title_start", true, 10, 0⟩
      (by decide) (by decide)⟩

theorem range'_cut (s n mid a b : Nat) (ha : s + a = mid) (hb : a + b = n) :
    List.range' s n = List.range' s a ++ List.range' mid b := by
  rw [← hb, range'_split s a b, ha]

theorem detect_skip_none (blocks : List Block) (f10 : Bool) :
    ∀ (l : List Nat) (st : DetectState), st.currentRegion = none →
      (∀ i ∈ l, isValidContentStart (blocks.getD i default) = false) →
      l.foldl (detectStep blocks f10) st = st := by
  intro l
  induction l with
  | nil => intro st _ _; rfl
  | cons a t ih =>
    intro st hc hall
    rw [List.foldl_cons]
    have hstep : detectStep blocks f10 st a = st := by
      unfold detectStep detectPhase1 detectPhase2
      simp only [hall a (List.mem_cons_self a t), Bool.false_eq_true, if_false, hc]
    rw [hstep]
    exact ih st hc (fun i hi => hall i (List.mem_cons_of_mem a hi))

theorem detect_skip_open (blocks : List Block) (f10 : Bool) :
    ∀ (l : List Nat) (st : DetectState) (c : Region), st.currentRegion = some c →
      (∀ i ∈ l, isValidContentStart (blocks.getD i default) = false ∧ i < c.endIdx) →
      l.foldl (detectStep blocks f10) st = st := by
  intro l
  induction l with
  | nil => intro st c _ _; rfl
  | cons a t ih =>
    intro st c hc hall
    rw [List.foldl_cons]
    have hfact := hall a (List.mem_cons_self a t)
    have hstep : detectStep blocks f10 st a = st := by
      unfold detectStep detectPhase1 detectPhase2
      simp only [hfact.1, Bool.false_eq_true, if_false, hc]
      rw [if_neg (by omega : ¬(a ≥ c.endIdx))]
    rw [hstep]
    exact ih st c hc (fun i hi => hall i (List.mem_cons_of_mem a hi))

theorem c3_step5 (blocks : List Block) (hlen : 15 ≤ blocks.length)
    (hv5 : isValidContentStart (blocks.getD 5 default) = true) :
    detectStep blocks true
      { regions := [], currentRegion := none, isFirstContentRegion := true } 5 =
      { regions := [],
        currentRegion := some
          { start := 5, endIdx := 14,
            reason := if strTruthy (blocks.getD 5 default).title = true
              then "title_start" else "content_start",
            isFirstRegion := true, extendRange := 10, lastValidContentIndex := 5 },
        isFirstContentRegion := false } := by
  unfold detectStep detectPhase1 detectPhase2
  simp only [hv5, eq_self_iff_true, if_true, Bool.not_true, Bool.and_false,
    Bool.false_eq_true, if_false]
  have hmin : (5 + 10 - 1 : Nat) ⊓ (blocks.length - 1) = 14 := by
    rw [show (5 + 10 - 1 : Nat) = 14 from by norm_num]
    exact Nat.min_eq_left (by omega)
  rw [hmin]
  rw [if_neg (by omega : ¬(5 ≥ 14))]

theorem c3_step14_big (blocks : List Block) (re : String) (hlen : 16 ≤ blocks.length)
    (hv14 : isValidContentStart (blocks.getD 14 default) = true) :
    detectStep blocks true
      { regions := [], currentRegion := some
          { start := 5, endIdx := 14, reason := re, isFirstRegion := true,
            extendRange := 10, lastValidContentIndex := 5 },
        isFirstContentRegion := false } 14 =
      { regions := [], currentRegion := some
          { start := 5, endIdx := min 23 (blocks.length - 1), reason := re,
            isFirstRegion := true, extendRange := 10, lastValidContentIndex := 14 },
        isFirstContentRegion := false } := by
  have hgt : (23 : Nat) ⊓ (blocks.length - 1) > 14 := by
    have h15 : (15 : Nat) ≤ 23 ⊓ (blocks.length - 1) :=
      Nat.le_min.mpr ⟨by omega, by omega⟩
    omega
  unfold detectStep detectPhase1 detectPhase2
  simp only [hv14, eq_self_iff_true, if_true]
  rw [show (14 + 10 - 1 : Nat) = 23 from by norm_num]
  rw [if_pos hgt]
  dsimp only
  rw [if_neg (by omega : ¬(14 ≥ 23 ⊓ (blocks.length - 1)))]

theorem c3_step14_eq15 (blocks : List Block) (re : String)
    (heq : blocks.length = 15)
    (hv14 : isValidContentStart (blocks.getD 14 default) = true) :
    detectStep blocks true
      { regions := [], currentRegion := some
          { start := 5, endIdx := 14, reason := re, isFirstRegion := true,
            extendRange := 10, lastValidContentIndex := 5 },
        isFirstContentRegion := false } 14 =
      { regions := [⟨5, 14, re, true, 10, 14⟩],
        currentRegion := none, isFirstContentRegion := false } := by
  have hfind : findNextValidContent blocks 14 = none := by
    unfold findNextValidContent
    rw [heq]
    rfl
  unfold detectStep detectPhase1 detectPhase2
  simp only [hv14, eq_self_iff_true, if_true]
  rw [heq]
  rw [show (14 + 10 - 1 : Nat) ⊓ (15 - 1) = 14 from by decide]
  rw [if_neg (by omega : ¬((14 : Nat) > 14))]
  dsimp only
  rw [if_pos (le_refl 14)]
  rw [hfind]
  simp

theorem c3_stepE (blocks : List Block) (re : String) (E : Nat)
    (hinvE : isValidContentStart (blocks.getD E default) = false)
    (hfind : findNextValidContent blocks 14 = none) :
    detectStep blocks true
      { regions := [], currentRegion := some
          { start := 5, endIdx := E, reason := re, isFirstRegion := true,
            extendRange := 10, lastValidContentIndex := 14 },
        isFirstContentRegion := false } E =
      { regions := [⟨5, E, re, true, 10, 14⟩],
        currentRegion := none, isFirstContentRegion := false } := by
  unfold detectStep detectPhase1 detectPhase2
  simp only [hinvE, Bool.false_eq_true, if_false]
  rw [if_pos (le_refl E)]
  rw [hfind]
  simp

/-- Claim C3: on any sequence of length at least 15 whose content-bearing
blocks are exactly indices 5 and 14, the detector returns exactly one
region `[5, min 23 (len-1)]` containing both indices: the block at 14
extends the region opened at 5 instead of starting a new one. -/
theorem claim3_merged_region (blocks : List Block)
    (hlen : 15 ≤ blocks.length)
    (hcb : ∀ i, i < blocks.length →
      (isValidContentStart (blocks.getD i default) = true ↔ (i = 5 ∨ i = 14))) :
    ∃ r, detectContentRegions blocks = [r] ∧ r.start = 5 ∧
      r.endIdx = min 23 (blocks.length - 1) ∧ 14 ≤ r.endIdx := by
  have hv5 : isValidContentStart (blocks.getD 5 default) = true :=
    (hcb 5 (by omega)).mpr (Or.inl rfl)
  have hv14 : isValidContentStart (blocks.getD 14 default) = true :=
    (hcb 14 (by omega)).mpr (Or.inr rfl)
  have hinv : ∀ i, i < blocks.length → ¬(i = 5 ∨ i = 14) →
      isValidContentStart (blocks.getD i default) = false := by
    intro i h1 h2
    cases hvi : isValidContentStart (blocks.getD i default)
    · rfl
    · exact absurd ((hcb i h1).mp hvi) h2
  have hf10 : hasValidContentInFirst10 blocks = true := by
    unfold hasValidContentInFirst10
    rw [List.any_eq_true]
    have h5t : 5 < (blocks.take 10).length := by
      rw [List.length_take]
      exact lt_min_iff.mpr ⟨by omega, by omega⟩
    refine ⟨(blocks.take 10).get ⟨5, h5t⟩, List.get_mem _ _ h5t, ?_⟩
    have hgd : (blocks.take 10).get ⟨5, h5t⟩ = blocks.getD 5 default := by
      rw [List.get_eq_getElem,
        List.getD_eq_getElem blocks default (by omega : 5 < blocks.length)]
      have h1 : (blocks.take 10)[5]? = blocks[5]? := by
        rw [List.getElem?_take]
        simp
      rw [List.getElem?_eq_getElem h5t,
        List.getElem?_eq_getElem (show 5 < blocks.length by omega)] at h1
      exact Option.some.inj h1
    rw [hgd]
    exact hv5
  refine ⟨⟨5, min 23 (blocks.length - 1),
    (if strTruthy (blocks.getD 5 default).title = true then "title_start"
      else "content_start"), true, 10, 14⟩, ?_, rfl, rfl,
    Nat.le_min.mpr ⟨by omega, by omega⟩⟩
  rw [detect_eq_allRegions, hf10, List.range_eq_range']
  rw [range'_cut 0 blocks.length 5 5 (blocks.length - 5) (by omega) (by omega),
    List.foldl_append]
  rw [detect_skip_none blocks true (List.range' 0 5) _ rfl
    (fun i hi => by rw [List.mem_range'_1] at hi; exact hinv i (by omega) (by omega))]
  rw [range'_cut 5 (blocks.length - 5) 6 1 (blocks.length - 6) (by omega) (by omega),
    List.foldl_append]
  rw [show List.range' 5 1 = [5] from rfl, List.foldl_cons, List.foldl_nil]
  rw [c3_step5 blocks hlen hv5]
  rw [range'_cut 6 (blocks.length - 6) 14 8 (blocks.length - 14) (by omega) (by omega),
    List.foldl_append]
  rw [detect_skip_open blocks true (List.range' 6 8) _
    ⟨5, 14, (if strTruthy (blocks.getD 5 default).title = true then "title_start"
      else "content_start"), true, 10, 5⟩ rfl
    (fun i hi => by
      rw [List.mem_range'_1] at hi
      exact ⟨hinv i (by omega) (by omega), by show i < 14; omega⟩)]
  rcases Nat.lt_or_ge blocks.length 16 with hlt | hge
  · have heq : blocks.length = 15 := by omega
    rw [range'_cut 14 (blocks.length - 14) 15 1 (blocks.length - 15) (by omega) (by omega),
      List.foldl_append]
    rw [show List.range' 14 1 = [14] from rfl, List.foldl_cons, List.foldl_nil]
    rw [c3_step14_eq15 blocks _ heq hv14]
    rw [show blocks.length - 15 = 0 from by omega]
    rw [show List.range' 15 0 = [] from rfl, List.foldl_nil]
    have hE15 : min 23 (blocks.length - 1) = 14 := by rw [heq]; rfl
    rw [hE15]
    unfold allRegions
    simp
  · have hE1 : 15 ≤ min 23 (blocks.length - 1) := Nat.le_min.mpr ⟨by omega, by omega⟩
    have hE2 : min 23 (blocks.length - 1) ≤ blocks.length - 1 := Nat.min_le_right _ _
    rw [range'_cut 14 (blocks.length - 14) 15 1 (blocks.length - 15) (by omega) (by omega),
      List.foldl_append]
    rw [show List.range' 14 1 = [14] from rfl, List.foldl_cons, List.foldl_nil]
    rw [c3_step14_big blocks _ hge hv14]
    rw [range'_cut 15 (blocks.length - 15) (min 23 (blocks.length - 1))
      (min 23 (blocks.length - 1) - 15) (blocks.length - min 23 (blocks.length - 1))
      (by omega) (by omega), List.foldl_append]
    rw [detect_skip_open blocks true
      (List.range' 15 (min 23 (blocks.length - 1) - 15)) _
      ⟨5, min 23 (blocks.length - 1),
        (if strTruthy (blocks.getD 5 default).title = true then "title_start"
          else "content_start"), true, 10, 14⟩ rfl
      (fun i hi => by
        rw [List.mem_range'_1] at hi
        refine ⟨hinv i (by omega) (by omega), ?_⟩
        show i < min 23 (blocks.length - 1)
        omega)]
    rw [range'_cut (min 23 (blocks.length - 1))
      (blocks.length - min 23 (blocks.length - 1)) (min 23 (blocks.length - 1) + 1) 1
      (blocks.length - 1 - min 23 (blocks.length - 1)) (by omega) (by omega),
      List.foldl_append]
    rw [show List.range' (min 23 (blocks.length - 1)) 1 = [min 23 (blocks.length - 1)]
      from rfl, List.foldl_cons, List.foldl_nil]
    have hinvE : isValidContentStart
        (blocks.getD (min 23 (blocks.length - 1)) default) = false :=
      hinv _ (by omega) (by omega)
    have hfindnone : findNextValidContent blocks 14 = none := by
      unfold findNextValidContent
      rw [List.find?_eq_none]
      intro j hj
      rw [List.mem_range'_1] at hj
      have h1 := Nat.min_le_left (14 + 10) (blocks.length - 1)
      have h2 := Nat.min_le_right (14 + 10) (blocks.length - 1)
      intro hcon
      have hj514 := (hcb j (by omega)).mp hcon
      rcases hj514 with h | h <;> omega
    rw [c3_stepE blocks _ (min 23 (blocks.length - 1)) hinvE hfindnone]
    rw [detect_skip_none blocks true
      (List.range' (min 23 (blocks.length - 1) + 1)
        (blocks.length - 1 - min 23 (blocks.length - 1))) _ rfl
      (fun i hi => by
        rw [List.mem_range'_1] at hi
        exact hinv i (by omega) (by omega))]
    unfold allRegions
    simp

/-- Witness for C3 at the concrete 20-block sequence whose content-bearing
blocks are exactly indices 5 and 14. -/
theorem claim3_merged_region_witness :
    ∃ r, detectContentRegions c3Blocks = [r] ∧ r.start = 5 ∧
      r.endIdx = min 23 (c3Blocks.length - 1) ∧ 14 ≤ r.endIdx :=
  claim3_merged_region c3Blocks (by decide) (by decide)
